import Mathlib

set_option autoImplicit false
set_option linter.unusedVariables false

deriving instance DecidableEq for Except

namespace CurrencyConv

/-- Supported 3-letter currency codes (the `Currency` enumeration in
src/models.py). -/
inductive Currency where
  | USD | EUR | GBP | JPY | INR | AED | UZS
  deriving DecidableEq, Fintype, Repr

/-- String value of a currency code (`Currency.value` in the source). -/
def Currency.code : Currency → String
  | .USD => "USD"
  | .EUR => "EUR"
  | .GBP => "GBP"
  | .JPY => "JPY"
  | .INR => "INR"
  | .AED => "AED"
  | .UZS => "UZS"

/-- All currency codes, in declaration order. -/
def allCurrencies : List Currency :=
  [.USD, .EUR, .GBP, .JPY, .INR, .AED, .UZS]

/-- First entry of a string-keyed association list, the model of both a
redis keyspace lookup and `dict.get` on a dict with unique keys. -/
def lookupKey {α : Type} (k : String) : List (String × α) → Option α
  | [] => none
  | (k2, v) :: rest => if k2 = k then some v else lookupKey k rest

/-- Duplicate removal, the model of Python `list(set(...))`; only the
underlying set of elements is meaningful. -/
def dedupKeys : List Currency → List Currency
  | [] => []
  | c :: cs => if c ∈ cs then dedupKeys cs else c :: dedupKeys cs

/-- A value as stored in redis: either the JSON serialization of a number
(what `json.dumps` produces for a rate) or bytes that do not deserialize
back to a number. -/
inductive RVal where
  | num (q : ℚ)
  | garbage
  deriving DecidableEq, Repr

/-- Behaviour of `json.loads` on a stored value: serialized numbers
round-trip; anything else raises `JSONDecodeError`, modelled as `none`. -/
def deserialize : RVal → Option ℚ
  | .num q => some q
  | .garbage => none

/-- State of the redis backing store as `RedisCache`
(src/commons/redis_cache.py) sees it: `connected` models
`self._client is not None`, `reachable` models whether client calls
succeed or raise, and `store` lists the stored entries with the TTL each
was written with. -/
structure RedisState where
  connected : Bool
  reachable : Bool
  store : List (String × RVal × Nat)
  deriving DecidableEq, Repr

/-- Raw `redis.get`: raises (is an `error`) when the server is
unreachable. -/
def clientGet (r : RedisState) (key : String) : Except String (Option RVal) :=
  if r.reachable then .ok ((lookupKey key r.store).map Prod.fst)
  else .error "connection error"

/-- Raw `redis.setex`: overwrites the key with a fresh value and TTL;
raises when the server is unreachable. -/
def clientSetex (r : RedisState) (key : String) (ttl : Nat) (v : RVal) :
    Except String RedisState :=
  if r.reachable then
    .ok { r with store := (key, v, ttl) :: r.store.filter (fun e => e.1 != key) }
  else .error "connection error"

/-- Raw `redis.delete`: raises when the server is unreachable. -/
def clientDel (r : RedisState) (key : String) : Except String RedisState :=
  if r.reachable then .ok { r with store := r.store.filter (fun e => e.1 != key) }
  else .error "connection error"

/-- Raw `redis.flushdb`: raises when the server is unreachable. -/
def clientFlush (r : RedisState) : Except String RedisState :=
  if r.reachable then .ok { r with store := [] } else .error "connection error"

/-- Raw `redis.exists`: raises when the server is unreachable. -/
def clientExists (r : RedisState) (key : String) : Except String Bool :=
  if r.reachable then .ok ((lookupKey key r.store).isSome)
  else .error "connection error"

/-- Embedding of `RedisCache.get`: returns `None` when disconnected, on any
client error, on a missing key, and on a deserialization failure. -/
def RedisCache.get (r : RedisState) (key : String) : Option ℚ :=
  if r.connected then
    match clientGet r key with
    | .error _ => none
    | .ok none => none
    | .ok (some v) => deserialize v
  else none

/-- Embedding of `RedisCache.set`: serializes the value and calls `setex`;
a no-op when disconnected or when the client call raises. -/
def RedisCache.set (r : RedisState) (key : String) (v : ℚ) (ttl : Nat) :
    RedisState :=
  if r.connected then
    match clientSetex r key ttl (RVal.num v) with
    | .error _ => r
    | .ok r2 => r2
  else r

/-- Embedding of `RedisCache.delete`: a no-op when disconnected or when the
client call raises. -/
def RedisCache.delete (r : RedisState) (key : String) : RedisState :=
  if r.connected then
    match clientDel r key with
    | .error _ => r
    | .ok r2 => r2
  else r

/-- Embedding of `RedisCache.clear`: calls `flushdb`; a no-op when
disconnected, and every error from `flushdb` is caught and logged, never
re-raised. -/
def RedisCache.clear (r : RedisState) : RedisState :=
  if r.connected then
    match clientFlush r with
    | .error _ => r
    | .ok r2 => r2
  else r

/-- Embedding of `RedisCache.exists`: `false` when disconnected or when the
client call raises. -/
def RedisCache.existsKey (r : RedisState) (key : String) : Bool :=
  if r.connected then
    match clientExists r key with
    | .error _ => false
    | .ok b => b
  else false

example : RedisCache.get ⟨true, true, [("k", RVal.num 3, 9)]⟩ "k" = some 3 := by decide
example : RedisCache.get ⟨true, true, [("k", RVal.garbage, 9)]⟩ "k" = none := by decide
example : RedisCache.set ⟨true, true, []⟩ "k" 2 7 = ⟨true, true, [("k", RVal.num 2, 7)]⟩ := by decide
example : RedisCache.set ⟨true, false, []⟩ "k" 2 7 = ⟨true, false, []⟩ := by decide

/-- Error taxonomy of the embedded operations (the Python code signals all
of these as dynamic exceptions). -/
inductive Err where
  | invalidAmount
  | rateUnavailable (f t : Currency) (available : List String)
  | providerFailure (msg : String)
  | noRates (f : Currency) (tos : List Currency)
  | rateUnresolved (f t : Currency)
  | batchExhausted
  deriving DecidableEq, Repr

/-- Rate table of the external provider relative to its forced EUR base:
the entry for a currency is `none` when the API response omits that code.
Values are unconstrained, because the client performs no validation of the
numbers the API returns. -/
abbrev ApiTable := Currency → Option ℚ

/-- Rates object of the HTTP response for a request restricted to
`targets` (the `symbols` query parameter); `none` requests the full
table. -/
def responseRates (api : ApiTable) : Option (List Currency) → List (String × ℚ)
  | some targets => targets.filterMap (fun c => (api c).map (fun q => (c.code, q)))
  | none => allCurrencies.filterMap (fun c => (api c).map (fun q => (c.code, q)))

/-- Embedding of `ExchangeRateData` (src/models.py): a snapshot of rates
relative to a base currency. The pydantic model declares `rates` as a bare
`dict` with no validator on the values. -/
structure ExchangeRateData where
  rates : List (String × ℚ)
  base : Currency
  deriving DecidableEq, Repr

/-- Embedding of `ExchangeRateClient.get_exchange_rates` in the
configuration with an API key, where the free tier forces the EUR base: the
requested base is ignored (only logged) and the snapshot is built from the
rates object of the response as-is, with no validation of the values. -/
def get_exchange_rates (api : ApiTable) (base : Currency)
    (targets : Option (List Currency)) : ExchangeRateData :=
  { rates := responseRates api targets, base := Currency.EUR }

/-- Currencies whose snapshot entries `get_rate` needs for a pair with
distinct ends: `[to]` when `from` is the forced EUR base, `[from]` when
`to` is, and both otherwise. These are exactly the symbols it requests. -/
def neededCurrencies (f t : Currency) : List Currency :=
  if f = Currency.EUR then [t]
  else if t = Currency.EUR then [f]
  else [f, t]

/-- Embedding of `ExchangeRateClient.get_rate`: derives a pairwise rate
from an EUR-based snapshot. The second component counts
`get_exchange_rates` round trips. Mirrors the source exactly, including
the Python truthiness checks (`if eur_to_from:`) that treat a zero entry
like a missing one in the reciprocal and cross-rate branches, while the
`from == EUR` branch checks only `rate is None`. -/
def client_get_rate (api : ApiTable) (f t : Currency) : Except Err ℚ × Nat :=
  if f = t then (.ok 1, 0)
  else
    let data := get_exchange_rates api Currency.EUR (some (neededCurrencies f t))
    let rate? : Option ℚ :=
      if f = Currency.EUR then lookupKey t.code data.rates
      else if t = Currency.EUR then
        match lookupKey f.code data.rates with
        | some a => if a = 0 then none else some (1 / a)
        | none => none
      else
        match lookupKey f.code data.rates, lookupKey t.code data.rates with
        | some a, some b => if a = 0 ∨ b = 0 then none else some (b / a)
        | _, _ => none
    match rate? with
    | none => (.error (.rateUnavailable f t (data.rates.map Prod.fst)), 1)
    | some r => (.ok r, 1)

/-- Currencies fetched by `get_multiple_rates`:
`list(set([c for c in [from] + tos if c != Currency.EUR]))` in the source.
Only the underlying set matters to the response, so duplicates are
removed keeping one representative. -/
def fetchTargets (f : Currency) (tos : List Currency) : List Currency :=
  dedupKeys ((f :: tos).filter (fun c => c != Currency.EUR))

/-- The single snapshot `get_multiple_rates` fetches; with an empty symbol
list the source passes `None` and the full table is returned. -/
def multiSnapshot (api : ApiTable) (f : Currency) (tos : List Currency) :
    ExchangeRateData :=
  get_exchange_rates api Currency.EUR
    (if (fetchTargets f tos).isEmpty then none else some (fetchTargets f tos))

/-- Loop body of `get_multiple_rates`: how one requested pair is derived
from the snapshot. Each branch uses Python truthiness (`if rate:`), so a
zero entry is skipped like a missing one. -/
def deriveFromSnapshot (data : ExchangeRateData) (f t : Currency) : Option ℚ :=
  if f = t then some 1
  else if f = Currency.EUR then
    match lookupKey t.code data.rates with
    | some q => if q = 0 then none else some q
    | none => none
  else if t = Currency.EUR then
    match lookupKey f.code data.rates with
    | some a => if a = 0 then none else some (1 / a)
    | none => none
  else
    match lookupKey f.code data.rates, lookupKey t.code data.rates with
    | some a, some b => if a = 0 ∨ b = 0 then none else some (b / a)
    | _, _ => none

/-- Assignment into a string-keyed dict with unique keys, preserving
first-insertion order as a Python dict does: replace in place when the key
is present, append otherwise. -/
def dictSet : List (String × ℚ) → String → ℚ → List (String × ℚ)
  | [], k, v => [(k, v)]
  | (k2, w) :: rest, k, v =>
      if k2 = k then (k, v) :: rest else (k2, w) :: dictSet rest k v

/-- One iteration of the loop of `get_multiple_rates`: derive the pair
rate for `t` from the snapshot, and assign it into the result dict when
derivable. -/
def deriveStep (data : ExchangeRateData) (f : Currency)
    (acc : List (String × ℚ)) (t : Currency) : List (String × ℚ) :=
  match deriveFromSnapshot data f t with
  | some q => dictSet acc t.code q
  | none => acc

/-- Result dict built by the loop of `get_multiple_rates`. -/
def multiResult (api : ApiTable) (f : Currency) (tos : List Currency) :
    List (String × ℚ) :=
  tos.foldl (deriveStep (multiSnapshot api f tos) f) []

/-- Embedding of `ExchangeRateClient.get_multiple_rates`: one EUR-based
fetch for all requested currencies other than EUR, every pair derived from
that snapshot, and an error only when the result dict stays empty. The
second component counts `get_exchange_rates` round trips. -/
def get_multiple_rates (api : ApiTable) (f : Currency) (tos : List Currency) :
    Except Err (List (String × ℚ)) × Nat :=
  if (multiResult api f tos).isEmpty then (.error (.noRates f tos), 1)
  else (.ok (multiResult api f tos), 1)

example :
    client_get_rate (fun c => if c = .USD then some 2 else if c = .GBP then some 8 else none)
      .USD .GBP = (.ok 4, 1) := by
  norm_num +decide [client_get_rate, get_exchange_rates, responseRates, neededCurrencies,
    lookupKey, Currency.code, List.filterMap_cons]
example :
    client_get_rate (fun c => if c = .USD then some 2 else none) .USD .GBP =
      (.error (.rateUnavailable .USD .GBP ["USD"]), 1) := by
  norm_num +decide [client_get_rate, get_exchange_rates, responseRates, neededCurrencies,
    lookupKey, Currency.code, List.filterMap_cons]
example : client_get_rate (fun _ => none) .USD .USD = (.ok 1, 0) := by decide
example :
    get_multiple_rates (fun c => if c = .USD then some 2 else if c = .GBP then some 8 else none)
      .USD [.GBP, .JPY, .USD] = (.ok [("GBP", 4), ("USD", 1)], 1) := by
  norm_num +decide [get_multiple_rates, multiResult, deriveStep, multiSnapshot, fetchTargets,
    dedupKeys, deriveFromSnapshot, get_exchange_rates, responseRates, dictSet, lookupKey,
    Currency.code, List.filterMap_cons, List.filter_cons]

/-- Outcome of a call to `self.client.get_rate` as the service sees it: a
rate, or any raised exception. -/
abbrev Provider := Currency → Currency → Except Err ℚ

/-- Counts of side-effecting calls made during one service operation:
cache reads, cache writes, provider round trips, fallback-table
consultations. -/
structure Events where
  cacheReads : Nat
  cacheWrites : Nat
  providerCalls : Nat
  fallbackLookups : Nat
  deriving DecidableEq, Repr

/-- Embedding of `_cache_key`: the literal `"exchange_rate:USD:EUR"`
format. -/
def cacheKey (f t : Currency) : String :=
  "exchange_rate:" ++ f.code ++ ":" ++ t.code

/-- The static table inside `_get_fallback_rate`, keyed by ordered pairs
of currency code strings. -/
def fallbackTable : List (String × String × ℚ) :=
  [("USD", "EUR", 92/100), ("USD", "GBP", 79/100), ("USD", "JPY", 1495/10),
   ("USD", "INR", 8312/100), ("USD", "AED", 367/100), ("USD", "UZS", 12755),
   ("EUR", "USD", 109/100), ("EUR", "GBP", 86/100), ("EUR", "JPY", 1625/10),
   ("GBP", "USD", 127/100), ("GBP", "EUR", 116/100),
   ("JPY", "USD", 67/10000), ("JPY", "EUR", 62/10000),
   ("INR", "USD", 12/1000), ("INR", "EUR", 11/1000),
   ("AED", "USD", 27/100), ("AED", "EUR", 25/100),
   ("UZS", "USD", 78/1000000), ("UZS", "EUR", 72/1000000)]

/-- Lookup of an ordered pair in the fallback table. -/
def fallbackPairLookup (f t : Currency) : List (String × String × ℚ) → Option ℚ
  | [] => none
  | (a, b, q) :: rest =>
      if a = f.code ∧ b = t.code then some q else fallbackPairLookup f t rest

/-- Embedding of `_get_fallback_rate`: `1.0` for an identity pair, else a
lookup in the static table, absent when no entry exists. -/
def fallbackRate (f t : Currency) : Option ℚ :=
  if f = t then some 1 else fallbackPairLookup f t fallbackTable

/-- Embedding of `_get_rate`, the rate-resolution chain: cache lookup
first; on a miss a provider call, whose successful value is written back
to the cache with the configured TTL; on a provider error the fallback
table, and only if that too is absent a terminal error naming both
currencies. The third component logs the side-effecting calls made. -/
def getRate (provider : Provider) (ttl : Nat) (r : RedisState) (key : String)
    (f t : Currency) : Except Err ℚ × RedisState × Events :=
  match RedisCache.get r key with
  | some q => (.ok q, r, ⟨1, 0, 0, 0⟩)
  | none =>
    match provider f t with
    | .ok rate => (.ok rate, RedisCache.set r key rate ttl, ⟨1, 1, 1, 0⟩)
    | .error _ =>
      match fallbackRate f t with
      | some fb => (.ok fb, r, ⟨1, 0, 1, 1⟩)
      | none => (.error (.rateUnresolved f t), r, ⟨1, 0, 1, 1⟩)

/-- Embedding of `_was_cached`: re-reads the cache after resolution and
compares the stored value with the fresh rate; a missing entry compares
unequal, as `None == rate` is `False` in Python. -/
def wasCached (r : RedisState) (key : String) (rate : ℚ) : Bool :=
  RedisCache.get r key == some rate

/-- Embedding of Python `round(x, 2)`: rounding to two decimal places with
ties going to the even hundredth. -/
def round2 (q : ℚ) : ℚ :=
  let scaled := q * 100
  let fl := ⌊scaled⌋
  let frac := scaled - fl
  let n : ℤ :=
    if frac < 1/2 then fl
    else if frac > 1/2 then fl + 1
    else if fl % 2 = 0 then fl else fl + 1
  (n : ℚ) / 100

/-- Embedding of `ConversionRequest` (src/models.py), before pydantic
validation: `convert` itself re-checks positivity of the amount. -/
structure ConversionRequest where
  amount : ℚ
  from_currency : Currency
  to_currency : Currency
  deriving DecidableEq, Repr

/-- Embedding of `ConversionResponse` (src/models.py); the wall-clock
timestamp field is not modelled. -/
structure ConversionResponse where
  amount : ℚ
  from_currency : Currency
  to_currency : Currency
  converted_amount : ℚ
  rate : ℚ
  cached : Bool
  deriving DecidableEq, Repr

/-- Embedding of `CurrencyConversionService.convert`: validation, the
identity-pair short circuit, rate resolution through `getRate`, the
rounded multiplication, and the `cached` flag computed by `_was_cached`
against the state left by resolution. -/
def convert (provider : Provider) (ttl : Nat) (r : RedisState)
    (req : ConversionRequest) :
    Except Err ConversionResponse × RedisState × Events :=
  if req.amount ≤ 0 then (.error .invalidAmount, r, ⟨0, 0, 0, 0⟩)
  else if req.from_currency = req.to_currency then
    (.ok { amount := req.amount, from_currency := req.from_currency,
           to_currency := req.to_currency, converted_amount := req.amount,
           rate := 1, cached := false }, r, ⟨0, 0, 0, 0⟩)
  else
    let key := cacheKey req.from_currency req.to_currency
    match getRate provider ttl r key req.from_currency req.to_currency with
    | (.ok rate, r2, ev) =>
        (.ok { amount := req.amount, from_currency := req.from_currency,
               to_currency := req.to_currency,
               converted_amount := round2 (req.amount * rate), rate := rate,
               cached := wasCached r2 key rate },
         r2, { ev with cacheReads := ev.cacheReads + 1 })
    | (.error e, r2, ev) => (.error e, r2, ev)

/-- Successful payload of an embedded operation, `none` on an error; used
where the Python code tests `isinstance(result, Exception)`. -/
def okValue {α : Type} : Except Err α → Option α
  | .ok a => some a
  | .error _ => none

/-- Embedding of `convert_batch`: the conversions are issued concurrently,
so each starts from the same cache state; failed conversions are dropped
from the output, and the batch raises only when no conversion
succeeded. -/
def convert_batch (provider : Provider) (ttl : Nat) (r : RedisState)
    (reqs : List ConversionRequest) : Except Err (List ConversionResponse) :=
  let successful := (reqs.map (fun req => (convert provider ttl r req).1)).filterMap okValue
  if successful.isEmpty then .error .batchExhausted else .ok successful

/-- Embedding of `clear_cache`: calls `RedisCache.clear` and would re-raise
an exception from it; the cache layer catches every backing-store error
itself, so the call always returns normally. -/
def clear_cache (r : RedisState) : Except Err RedisState :=
  .ok (RedisCache.clear r)

/-- Embedding of `get_rate_direct`: with `use_cache = False` a bare
provider call — no cache read, no cache write, no fallback, errors
propagating to the caller; otherwise the full `_get_rate` chain on the
pair's cache key. -/
def get_rate_direct (provider : Provider) (ttl : Nat) (r : RedisState)
    (f t : Currency) (use_cache : Bool) : Except Err ℚ × RedisState × Events :=
  if use_cache = false then (provider f t, r, ⟨0, 0, 1, 0⟩)
  else getRate provider ttl r (cacheKey f t) f t

example :
    convert (fun _ _ => .ok 2) 60 ⟨true, true, []⟩ ⟨1, .USD, .EUR⟩ =
      (.ok ⟨1, .USD, .EUR, 2, 2, true⟩,
       ⟨true, true, [("exchange_rate:USD:EUR", RVal.num 2, 60)]⟩,
       ⟨2, 1, 1, 0⟩) := by
  norm_num +decide [convert, getRate, cacheKey, Currency.code, RedisCache.get, RedisCache.set,
    clientGet, clientSetex, lookupKey, deserialize, wasCached, round2]
example :
    convert (fun _ _ => .error (.providerFailure "down")) 60 ⟨true, true, []⟩
      ⟨1, .USD, .EUR⟩ =
      (.ok ⟨1, .USD, .EUR, 92/100, 92/100, false⟩, ⟨true, true, []⟩, ⟨2, 0, 1, 1⟩) := by
  norm_num +decide [convert, getRate, cacheKey, Currency.code, RedisCache.get,
    clientGet, lookupKey, wasCached, fallbackRate, fallbackPairLookup, fallbackTable, round2]
example :
    convert (fun _ _ => .ok 2) 60 ⟨true, true, []⟩ ⟨1, .USD, .USD⟩ =
      (.ok ⟨1, .USD, .USD, 1, 1, false⟩, ⟨true, true, []⟩, ⟨0, 0, 0, 0⟩) := by
  norm_num +decide [convert]

/-- C1: on a conversion with positive amount and distinct currencies where
the cache misses and the provider fetch succeeds, `convert` does write the
fetched rate into the cache under the pair's key with the configured TTL —
but the returned `servedFromCache` flag is `true`, not `false` as the
specification requires: `_was_cached` re-reads the cache after the write
and finds the value it just stored. Shown here on the concrete run
`convert(amount = 100, USD → EUR)` against an empty, connected cache with
the provider returning `0.92` and TTL `1800`. -/
theorem convert_provider_path_miscached :
    convert (fun _ _ => .ok (92/100)) 1800 ⟨true, true, []⟩ ⟨100, .USD, .EUR⟩ =
      (.ok ⟨100, .USD, .EUR, 92, 92/100, true⟩,
       ⟨true, true, [("exchange_rate:USD:EUR", RVal.num (92/100), 1800)]⟩,
       ⟨2, 1, 1, 0⟩) := by
  norm_num +decide [convert, getRate, cacheKey, Currency.code, RedisCache.get, RedisCache.set,
    clientGet, clientSetex, lookupKey, deserialize, wasCached, round2]

/-- C2: on a conversion with positive amount and distinct currencies where
the cache misses, the provider call fails and the fallback table has an
entry for the ordered pair, `convert` succeeds with the fallback rate, the
`servedFromCache` flag is `false`, and the final cache state is exactly the
initial one — the fallback value is not written, so a following identical
request is this very same run again, whose event log shows one provider
call and no cache hit. -/
theorem convert_fallback_success (provider : Provider) (ttl : Nat)
    (r : RedisState) (req : ConversionRequest) (e : Err) (fb : ℚ)
    (hamt : 0 < req.amount)
    (hne : req.from_currency ≠ req.to_currency)
    (hmiss : RedisCache.get r (cacheKey req.from_currency req.to_currency) = none)
    (hprov : provider req.from_currency req.to_currency = .error e)
    (hfb : fallbackRate req.from_currency req.to_currency = some fb) :
    convert provider ttl r req =
      (.ok ⟨req.amount, req.from_currency, req.to_currency,
            round2 (req.amount * fb), fb, false⟩, r, ⟨2, 0, 1, 1⟩) := by
  have hamt2 : ¬ req.amount ≤ 0 := not_le.mpr hamt
  simp only [convert, getRate, hamt2, hne, hmiss, hprov, hfb, wasCached, if_false,
    ite_false, if_neg]
  simp [hmiss]

/-- C2 witness: the fallback run at `convert(amount = 1, USD → EUR)`
against an empty connected cache with a failing provider; the fallback
entry for (USD, EUR) is 0.92. -/
theorem convert_fallback_success_witness :
    convert (fun _ _ => .error (.providerFailure "down")) 1800 ⟨true, true, []⟩
      ⟨1, .USD, .EUR⟩ =
      (.ok ⟨1, .USD, .EUR, 92/100, 92/100, false⟩, ⟨true, true, []⟩, ⟨2, 0, 1, 1⟩) := by
  rw [convert_fallback_success (fun _ _ => .error (.providerFailure "down")) 1800
    ⟨true, true, []⟩ ⟨1, .USD, .EUR⟩ (.providerFailure "down") (92/100)
    (by norm_num) (by decide)
    (by norm_num +decide [RedisCache.get, clientGet, lookupKey, cacheKey, Currency.code])
    rfl
    (by norm_num +decide [fallbackRate, fallbackPairLookup, fallbackTable, Currency.code])]
  norm_num [round2]

/-- C3 counterexample: a run in which the backing store's flush fails (the
store is unreachable, so `flushdb` raises) yet `clear_cache` returns
plain success to its caller and the store keeps its entries — the
underlying error is swallowed inside `RedisCache.clear`, never propagated
as a `CacheError`. -/
theorem clear_cache_swallows_flush_error :
    clientFlush ⟨true, false, [("exchange_rate:USD:EUR", RVal.num 1, 1800)]⟩ =
      .error "connection error" ∧
    clear_cache ⟨true, false, [("exchange_rate:USD:EUR", RVal.num 1, 1800)]⟩ =
      .ok ⟨true, false, [("exchange_rate:USD:EUR", RVal.num 1, 1800)]⟩ := by
  constructor
  · decide
  · norm_num +decide [clear_cache, RedisCache.clear, clientFlush]

/-- C3 amended: `clear_cache` delegates to the cache's clear operation and
would re-raise an error from it, but `RedisCache.clear` catches every
backing-store error itself, so `clear_cache` always returns success; in
particular when the flush fails the caller observes silent success and the
store is left unchanged. -/
theorem clear_cache_delegates_and_never_errors (r : RedisState) :
    clear_cache r = .ok (RedisCache.clear r) ∧
    (r.reachable = false → RedisCache.clear r = r) := by
  refine ⟨rfl, fun h => ?_⟩
  simp [RedisCache.clear, clientFlush, h]

/-- C3 witness: the amended clear behaviour at a concrete disconnected-
flush state. -/
theorem clear_cache_delegates_witness :
    clear_cache ⟨true, false, []⟩ = .ok ⟨true, false, []⟩ := by
  have h := clear_cache_delegates_and_never_errors ⟨true, false, []⟩
  rw [h.1, h.2 rfl]

/-- C6: while the backing store is unreachable — the client handle is gone
(`connected = false`) or every client call raises (`reachable = false`) —
each `RedisCache` operation returns its absent value instead of raising:
`get` is `none`, `set`, `delete` and `clear` leave the state untouched,
and `existsKey` is `false`; and independently, a stored value that fails
to deserialize makes `get` report a plain cache miss. -/
theorem redis_cache_degraded_mode (r : RedisState) (key : String) (v : ℚ)
    (ttl n : Nat) :
    (r.connected = false ∨ r.reachable = false →
      RedisCache.get r key = none ∧
      RedisCache.set r key v ttl = r ∧
      RedisCache.delete r key = r ∧
      RedisCache.clear r = r ∧
      RedisCache.existsKey r key = false) ∧
    (lookupKey key r.store = some (RVal.garbage, n) →
      RedisCache.get r key = none) := by
  constructor
  · rintro (h | h) <;>
      simp [RedisCache.get, RedisCache.set, RedisCache.delete, RedisCache.clear,
        RedisCache.existsKey, clientGet, clientSetex, clientDel, clientFlush,
        clientExists, h]
  · intro h
    rcases hc : r.connected with _ | _ <;>
      rcases hr : r.reachable with _ | _ <;>
        simp [RedisCache.get, clientGet, hc, hr, h, deserialize]

/-- C6 witness: the degraded equations at a disconnected state, and the
deserialization-failure miss at a connected state holding bytes that do
not parse. -/
theorem redis_cache_degraded_mode_witness :
    RedisCache.get ⟨false, true, []⟩ "exchange_rate:USD:EUR" = none ∧
    RedisCache.get ⟨true, true, [("exchange_rate:USD:EUR", RVal.garbage, 5)]⟩
      "exchange_rate:USD:EUR" = none := by
  constructor
  · exact ((redis_cache_degraded_mode ⟨false, true, []⟩ "exchange_rate:USD:EUR" 0 0 0).1
      (Or.inl rfl)).1
  · exact (redis_cache_degraded_mode ⟨true, true, [("exchange_rate:USD:EUR", RVal.garbage, 5)]⟩
      "exchange_rate:USD:EUR" 0 0 5).2 (by decide)

/-- C10: with `use_cache = false`, `get_rate_direct` is a bare provider
call: the result — success or failure — is exactly what the provider
returns, the cache state is untouched, and the event log shows one
provider call, no cache read, no cache write and no fallback consultation;
with `use_cache = true` it is exactly the full `_get_rate` resolution
chain on the pair's cache key. -/
theorem get_rate_direct_bypasses_cache (provider : Provider) (ttl : Nat)
    (r : RedisState) (f t : Currency) (h : f ≠ t) :
    get_rate_direct provider ttl r f t false = (provider f t, r, ⟨0, 0, 1, 0⟩) ∧
    get_rate_direct provider ttl r f t true =
      getRate provider ttl r (cacheKey f t) f t := by
  exact ⟨rfl, rfl⟩

/-- C10 witness: a failing provider propagates through
`get_rate_direct(USD, EUR, use_cache = false)` untouched. -/
theorem get_rate_direct_bypasses_cache_witness :
    get_rate_direct (fun _ _ => .error (.providerFailure "down")) 1800
      ⟨true, true, []⟩ .USD .EUR false =
      (.error (.providerFailure "down"), ⟨true, true, []⟩, ⟨0, 0, 1, 0⟩) :=
  (get_rate_direct_bypasses_cache (fun _ _ => .error (.providerFailure "down")) 1800
    ⟨true, true, []⟩ .USD .EUR (by decide)).1

/-- C7: `convert_batch` fails with `BatchExhausted` exactly when every
request in the batch fails, the empty batch included; and as soon as one
request succeeds it returns precisely the successful results, in request
order, with every failing request dropped from the output. -/
theorem convert_batch_partial_failure (provider : Provider) (ttl : Nat)
    (r : RedisState) (reqs : List ConversionRequest) :
    (convert_batch provider ttl r reqs = .error .batchExhausted ↔
      ∀ req ∈ reqs, okValue (convert provider ttl r req).1 = none) ∧
    ((∃ req ∈ reqs, okValue (convert provider ttl r req).1 ≠ none) →
      convert_batch provider ttl r reqs =
        .ok (reqs.filterMap fun req => okValue (convert provider ttl r req).1)) := by
  have hmap : (reqs.map fun req => (convert provider ttl r req).1).filterMap okValue
      = reqs.filterMap fun req => okValue (convert provider ttl r req).1 := by
    rw [List.filterMap_map]; rfl
  by_cases hempty :
      (reqs.filterMap fun req => okValue (convert provider ttl r req).1) = []
  · have hforall : ∀ req ∈ reqs, okValue (convert provider ttl r req).1 = none :=
      List.filterMap_eq_nil_iff.mp hempty
    refine ⟨⟨fun _ => hforall, fun _ => ?_⟩, fun hex => ?_⟩
    · simp [convert_batch, hmap, hempty]
    · obtain ⟨req, hreq, hne⟩ := hex
      exact absurd (hforall req hreq) hne
  · refine ⟨⟨fun h => ?_, fun hforall => ?_⟩, fun _ => ?_⟩
    · exfalso
      have hok : convert_batch provider ttl r reqs =
          .ok (reqs.filterMap fun req => okValue (convert provider ttl r req).1) := by
        simp [convert_batch, hmap, hempty]
      rw [hok] at h
      exact Except.noConfusion h
    · exact absurd (List.filterMap_eq_nil_iff.mpr hforall) hempty
    · simp [convert_batch, hmap, hempty]

/-- C7 witness: with a working provider, three requests of which exactly
one is invalid (`amount = 0`) produce exactly the two successful results,
and three invalid requests make the batch fail with `BatchExhausted`. -/
theorem convert_batch_partial_failure_witness :
    convert_batch (fun _ _ => .ok 2) 60 ⟨true, true, []⟩
      [⟨1, .USD, .EUR⟩, ⟨0, .USD, .EUR⟩, ⟨5, .GBP, .JPY⟩] =
      .ok [⟨1, .USD, .EUR, 2, 2, true⟩, ⟨5, .GBP, .JPY, 10, 2, true⟩] ∧
    convert_batch (fun _ _ => .ok 2) 60 ⟨true, true, []⟩
      [⟨0, .USD, .EUR⟩, ⟨0, .EUR, .GBP⟩, ⟨0, .GBP, .JPY⟩] = .error .batchExhausted := by
  constructor
  · rw [(convert_batch_partial_failure (fun _ _ => .ok 2) 60 ⟨true, true, []⟩
      [⟨1, .USD, .EUR⟩, ⟨0, .USD, .EUR⟩, ⟨5, .GBP, .JPY⟩]).2
      ⟨⟨1, .USD, .EUR⟩, by norm_num, by
        norm_num +decide [convert, getRate, okValue, cacheKey, Currency.code,
          RedisCache.get, RedisCache.set, clientGet, clientSetex, lookupKey,
          deserialize, wasCached, round2]⟩]
    norm_num +decide [convert, getRate, okValue, cacheKey, Currency.code,
      RedisCache.get, RedisCache.set, clientGet, clientSetex, lookupKey,
      deserialize, wasCached, round2, List.filterMap_cons]
  · refine (convert_batch_partial_failure (fun _ _ => .ok 2) 60 ⟨true, true, []⟩
      [⟨0, .USD, .EUR⟩, ⟨0, .EUR, .GBP⟩, ⟨0, .GBP, .JPY⟩]).1.mpr ?_
    intro req hreq
    fin_cases hreq <;> norm_num [convert, okValue]

/-- Distinct currencies have distinct code strings. -/
theorem code_injective : ∀ c c2 : Currency, c.code = c2.code → c = c2 := by decide

/-- A snapshot lookup by code finds exactly the provider's entry for that
currency, when the currency was among the requested symbols. -/
theorem lookupKey_filterMap (api : ApiTable) (S : List Currency) (c : Currency) :
    lookupKey c.code (S.filterMap (fun x => (api x).map (fun q => (x.code, q)))) =
      if c ∈ S then api c else none := by
  induction S with
  | nil => simp [lookupKey]
  | cons x xs ih =>
    rw [List.filterMap_cons]
    by_cases hx : c = x
    · subst hx
      cases hapi : api c with
      | none => simp [hapi, ih]
      | some q => simp [hapi, lookupKey]
    · have hcode : ¬ x.code = c.code := fun h => hx (code_injective x c h).symm
      cases hapi : api x with
      | none => simp [hapi, ih, List.mem_cons, hx]
      | some q => simp [hapi, lookupKey, hcode, ih, List.mem_cons, hx]

/-- C4: case analysis of `get_rate` under the data-model invariant that
every rate the provider returns is strictly positive. An identity pair
yields `1.0` with zero network round trips; with `from` the forced EUR
base the snapshot entry for `to` is returned; with `to` the base, the
reciprocal of the entry for `from`; otherwise the quotient
`rate(to)/rate(from)` of the two entries; and whenever a needed entry is
missing from the response the call fails with a rate-unavailable error
carrying exactly the codes the response did contain. -/
theorem client_get_rate_cases (api : ApiTable) (f t : Currency)
    (pos : ∀ c q, api c = some q → 0 < q) :
    (f = t → client_get_rate api f t = (.ok 1, 0)) ∧
    (f ≠ t → f = Currency.EUR → ∀ q, api t = some q →
        client_get_rate api f t = (.ok q, 1)) ∧
    (f ≠ t → t = Currency.EUR → ∀ q, api f = some q →
        client_get_rate api f t = (.ok (1 / q), 1)) ∧
    (f ≠ t → f ≠ Currency.EUR → t ≠ Currency.EUR →
      ∀ a b, api f = some a → api t = some b →
        client_get_rate api f t = (.ok (b / a), 1)) ∧
    (f ≠ t → (∃ c ∈ neededCurrencies f t, api c = none) →
        client_get_rate api f t =
          (.error (.rateUnavailable f t
            ((responseRates api (some (neededCurrencies f t))).map Prod.fst)), 1)) := by
  refine ⟨?_, ?_, ?_, ?_, ?_⟩
  · intro h
    simp [client_get_rate, h]
  · intro hne hf q hq
    subst hf
    simp [client_get_rate, hne, neededCurrencies, get_exchange_rates, responseRates,
      lookupKey, hq]
  · intro hne ht q hq
    subst ht
    have hf : f ≠ Currency.EUR := hne
    have hq0 : q ≠ 0 := (pos f q hq).ne'
    simp [client_get_rate, hne, hf, neededCurrencies, get_exchange_rates, responseRates,
      lookupKey, hq, hq0]
  · intro hne hf ht a b ha hb
    have ha0 : a ≠ 0 := (pos f a ha).ne'
    have hb0 : b ≠ 0 := (pos t b hb).ne'
    have hft : ¬ f.code = t.code := fun h => hne (code_injective f t h)
    simp [client_get_rate, hne, hf, ht, neededCurrencies, get_exchange_rates, responseRates,
      lookupKey, ha, hb, ha0, hb0, hft]
  · rintro hne ⟨c, hc, hcnone⟩
    by_cases hf : f = Currency.EUR
    · subst hf
      simp [neededCurrencies] at hc
      subst hc
      simp [client_get_rate, hne, neededCurrencies, get_exchange_rates, responseRates,
        lookupKey, hcnone]
    · by_cases ht : t = Currency.EUR
      · subst ht
        simp [neededCurrencies, hf] at hc
        subst hc
        simp [client_get_rate, hne, hf, neededCurrencies, get_exchange_rates, responseRates,
          lookupKey, hcnone]
      · simp [neededCurrencies, hf, ht] at hc
        rcases hc with hc | hc
        · subst hc
          have htc : ¬ t.code = c.code := fun h => hne (code_injective t c h).symm
          rcases hat : api t with _ | b <;>
            simp [client_get_rate, hne, hf, ht, neededCurrencies, get_exchange_rates,
              responseRates, lookupKey, hcnone, hat, htc]
        · subst hc
          have hfc : ¬ f.code = c.code := fun h => hne (code_injective f c h)
          rcases haf : api f with _ | a <;>
            simp [client_get_rate, hne, hf, ht, neededCurrencies, get_exchange_rates,
              responseRates, lookupKey, hcnone, haf, hfc]

/-- C4 witness: the cross-rate branch on the EUR-based table with
USD at 1.0869 and UZS at 13870.5, giving 13870.5 / 1.0869. -/
theorem client_get_rate_cases_witness :
    client_get_rate
      (fun c => if c = .USD then some (10869/10000)
        else if c = .UZS then some (27741/2) else none) .USD .UZS =
      (.ok ((27741/2) / (10869/10000)), 1) := by
  refine (client_get_rate_cases
    (fun c => if c = .USD then some (10869/10000)
      else if c = .UZS then some (27741/2) else none) .USD .UZS ?_).2.2.2.1
    (by decide) (by decide) (by decide) (10869/10000) (27741/2) rfl rfl
  intro c q hq
  cases c <;> simp at hq <;> rw [← hq] <;> norm_num

/-- A dict assignment makes the assigned key look up the assigned value. -/
theorem dictSet_lookup_self (d : List (String × ℚ)) (k : String) (v : ℚ) :
    lookupKey k (dictSet d k v) = some v := by
  induction d with
  | nil => simp [dictSet, lookupKey]
  | cons e rest ih =>
    obtain ⟨k2, w⟩ := e
    by_cases h : k2 = k
    · simp [dictSet, h, lookupKey]
    · simp [dictSet, h, lookupKey, ih]

/-- A dict assignment leaves every other key's lookup unchanged. -/
theorem dictSet_lookup_other (d : List (String × ℚ)) (k k2 : String) (v : ℚ)
    (hne : k ≠ k2) : lookupKey k2 (dictSet d k v) = lookupKey k2 d := by
  induction d with
  | nil => simp [dictSet, lookupKey, hne]
  | cons e rest ih =>
    obtain ⟨k3, w⟩ := e
    by_cases h : k3 = k
    · subst h
      simp [dictSet, lookupKey, hne]
    · simp [dictSet, h, lookupKey, ih]

/-- The derivation loop leaves keys alone that none of its currencies
carry. -/
theorem foldl_deriveStep_untouched (data : ExchangeRateData) (f : Currency)
    (ts : List Currency) (k : String) (hk : ∀ u ∈ ts, u.code ≠ k) :
    ∀ acc, lookupKey k (ts.foldl (deriveStep data f) acc) = lookupKey k acc := by
  induction ts with
  | nil => intro acc; rfl
  | cons u rest ih =>
    intro acc
    rw [List.foldl_cons, ih (fun v hv => hk v (List.mem_cons_of_mem u hv))]
    unfold deriveStep
    cases hd : deriveFromSnapshot data f u with
    | none => rfl
    | some q => exact dictSet_lookup_other acc u.code k q (hk u (List.mem_cons_self u rest))

/-- After the derivation loop, the key of a requested currency looks up
exactly what the snapshot derives for it, falling back to the initial
dict when nothing is derivable. -/
theorem foldl_deriveStep_lookup (data : ExchangeRateData) (f : Currency)
    (ts : List Currency) (t : Currency) (ht : t ∈ ts) :
    ∀ acc, lookupKey t.code (ts.foldl (deriveStep data f) acc) =
      match deriveFromSnapshot data f t with
      | some q => some q
      | none => lookupKey t.code acc := by
  induction ts with
  | nil => exact absurd ht (List.not_mem_nil t)
  | cons u rest ih =>
    intro acc
    by_cases hmem : t ∈ rest
    · rw [List.foldl_cons, ih hmem]
      cases hd : deriveFromSnapshot data f t with
      | some q => rfl
      | none =>
        by_cases huc : u.code = t.code
        · have : u = t := code_injective u t huc
          subst this
          simp [deriveStep, hd]
        · unfold deriveStep
          cases hdu : deriveFromSnapshot data f u with
          | none => rfl
          | some q => exact dictSet_lookup_other acc u.code t.code q huc
    · have hut : t = u := by
        rcases List.mem_cons.mp ht with h | h
        · exact h
        · exact absurd h hmem
      subst hut
      rw [List.foldl_cons,
        foldl_deriveStep_untouched data f rest t.code
          (fun v hv h => hmem (code_injective v t h ▸ hv))]
      unfold deriveStep
      cases hd : deriveFromSnapshot data f t with
      | some q => exact dictSet_lookup_self acc t.code q
      | none => rfl

/-- When no requested currency is derivable the loop builds nothing. -/
theorem foldl_deriveStep_all_none (data : ExchangeRateData) (f : Currency)
    (ts : List Currency)
    (h : ∀ t ∈ ts, deriveFromSnapshot data f t = none) :
    ∀ acc, ts.foldl (deriveStep data f) acc = acc := by
  induction ts with
  | nil => intro acc; rfl
  | cons u rest ih =>
    intro acc
    rw [List.foldl_cons]
    have hu : deriveStep data f acc u = acc := by
      simp [deriveStep, h u (List.mem_cons_self u rest)]
    rw [hu, ih (fun v hv => h v (List.mem_cons_of_mem u hv))]

/-- Membership in the model of `list(set(...))` is plain membership. -/
theorem mem_dedupKeys (c : Currency) (l : List Currency) :
    c ∈ dedupKeys l ↔ c ∈ l := by
  induction l with
  | nil => simp [dedupKeys]
  | cons x xs ih =>
    by_cases hx : x ∈ xs
    · simp only [dedupKeys, if_pos hx, ih, List.mem_cons]
      constructor
      · exact Or.inr
      · rintro (h | h)
        · exact h ▸ hx
        · exact h
    · simp [dedupKeys, hx, ih, List.mem_cons]

/-- C5: `get_multiple_rates` makes exactly one provider round trip, whose
symbol set is precisely the requested currencies (source plus targets)
minus the forced EUR base; every requested pair is derived from that
single snapshot — the result's entry under each target's code is exactly
what the snapshot derives for that pair; it fails if and only if no
requested pair is derivable, and one derivable pair suffices for the
partial result dict to be returned. -/
theorem get_multiple_rates_single_fetch (api : ApiTable) (f : Currency)
    (tos : List Currency) :
    (get_multiple_rates api f tos).2 = 1 ∧
    (∀ c, c ∈ fetchTargets f tos ↔ c ∈ f :: tos ∧ c ≠ Currency.EUR) ∧
    (∀ t ∈ tos,
      lookupKey t.code (multiResult api f tos) =
        deriveFromSnapshot (multiSnapshot api f tos) f t) ∧
    ((get_multiple_rates api f tos).1 = .error (.noRates f tos) ↔
      ∀ t ∈ tos, deriveFromSnapshot (multiSnapshot api f tos) f t = none) ∧
    ((∃ t ∈ tos, deriveFromSnapshot (multiSnapshot api f tos) f t ≠ none) →
      (get_multiple_rates api f tos).1 = .ok (multiResult api f tos)) := by
  have hlookup : ∀ t ∈ tos,
      lookupKey t.code (multiResult api f tos) =
        deriveFromSnapshot (multiSnapshot api f tos) f t := by
    intro t ht
    rw [multiResult, foldl_deriveStep_lookup (multiSnapshot api f tos) f tos t ht []]
    cases deriveFromSnapshot (multiSnapshot api f tos) f t <;> rfl
  have hempty : multiResult api f tos = [] ↔
      ∀ t ∈ tos, deriveFromSnapshot (multiSnapshot api f tos) f t = none := by
    constructor
    · intro h t ht
      by_contra hne
      obtain ⟨q, hq⟩ := Option.ne_none_iff_exists'.mp hne
      have := hlookup t ht
      rw [h, hq] at this
      exact Option.noConfusion this
    · intro h
      exact foldl_deriveStep_all_none (multiSnapshot api f tos) f tos h []
  have hcount : (get_multiple_rates api f tos).2 = 1 := by
    unfold get_multiple_rates
    by_cases h : (multiResult api f tos).isEmpty <;> simp [h]
  refine ⟨hcount, ?_, hlookup, ?_, ?_⟩
  · intro c
    simp [fetchTargets, mem_dedupKeys, List.mem_filter, bne_iff_ne, and_comm]
  · rw [← hempty]
    unfold get_multiple_rates
    by_cases h : multiResult api f tos = []
    · simp [h]
    · simp [List.isEmpty_iff, h]
  · intro hex
    have h : ¬ multiResult api f tos = [] := by
      obtain ⟨t, ht, hne⟩ := hex
      intro h
      exact hne (hempty.mp h t ht)
    unfold get_multiple_rates
    simp [List.isEmpty_iff, h]

/-- C5 witness: one fetch resolves USD against three targets, with GBP
absent from the response: the partial dict carries the two derivable pairs
and the entry for UZS is the snapshot-derived cross rate. -/
theorem get_multiple_rates_single_fetch_witness :
    (get_multiple_rates
        (fun c => if c = .USD then some 2 else if c = .UZS then some 4 else none)
        .USD [.EUR, .UZS, .GBP]).1 =
      .ok [("EUR", 1/2), ("UZS", 2)] := by
  rw [(get_multiple_rates_single_fetch
      (fun c => if c = .USD then some 2 else if c = .UZS then some 4 else none)
      .USD [.EUR, .UZS, .GBP]).2.2.2.2
    ⟨.UZS, by decide, by
      norm_num +decide [deriveFromSnapshot, multiSnapshot, fetchTargets, dedupKeys,
        get_exchange_rates, responseRates, lookupKey, Currency.code,
        List.filterMap_cons, List.filter_cons]⟩]
  norm_num +decide [multiResult, deriveStep, multiSnapshot, fetchTargets, dedupKeys,
    deriveFromSnapshot, get_exchange_rates, responseRates, dictSet, lookupKey,
    Currency.code, List.filterMap_cons, List.filter_cons]

/-- Every entry of a response restriction comes from the provider table,
so positive table values give positive snapshot values. -/
theorem mem_filterMap_rates_pos (api : ApiTable) (L : List Currency)
    (pos : ∀ c q, api c = some q → 0 < q) (p : String × ℚ)
    (hp : p ∈ L.filterMap (fun c => (api c).map (fun q => (c.code, q)))) :
    0 < p.2 := by
  obtain ⟨c, hc, hcq⟩ := List.mem_filterMap.mp hp
  obtain ⟨q, hq, hpair⟩ := Option.map_eq_some'.mp hcq
  cases hpair
  exact pos c q hq

/-- C8 counterexample: `get_exchange_rates` performs no validation of the
response values, so a successful fetch whose response carries the rate
`-1` for USD produces a snapshot whose rates mapping is not strictly
positive — the claimed invariant fails on this fetch. -/
theorem snapshot_positivity_counterexample :
    (get_exchange_rates (fun c => if c = .USD then some (-1) else none)
        Currency.EUR (some [Currency.USD])).rates = [("USD", -1)] ∧
    ¬ (∀ p ∈ (get_exchange_rates (fun c => if c = .USD then some (-1) else none)
        Currency.EUR (some [Currency.USD])).rates, 0 < p.2) := by
  have hr : (get_exchange_rates (fun c => if c = .USD then some (-1) else none)
      Currency.EUR (some [Currency.USD])).rates = [("USD", -1)] := by
    norm_num +decide [get_exchange_rates, responseRates, List.filterMap_cons]
  refine ⟨hr, fun h => ?_⟩
  have h1 := h ("USD", -1) (by rw [hr]; exact List.mem_singleton.mpr rfl)
  norm_num at h1

/-- C8 amended: a successful provider fetch copies the rates object of the
response into the snapshot unvalidated, so the snapshot's mapping is
exactly the response's; its values are strictly positive whenever the
provider's values are, but no positivity invariant is enforced by
construction (and the pydantic model leaves the record mutable). -/
theorem snapshot_rates_mirror_response (api : ApiTable) (base : Currency)
    (targets : Option (List Currency)) :
    (get_exchange_rates api base targets).rates = responseRates api targets ∧
    ((∀ c q, api c = some q → 0 < q) →
      ∀ p ∈ (get_exchange_rates api base targets).rates, 0 < p.2) := by
  refine ⟨rfl, fun pos p hp => ?_⟩
  cases targets with
  | some S =>
    simp only [get_exchange_rates, responseRates] at hp
    exact mem_filterMap_rates_pos api S pos p hp
  | none =>
    simp only [get_exchange_rates, responseRates] at hp
    exact mem_filterMap_rates_pos api allCurrencies pos p hp

/-- C8 witness: on an all-positive response the snapshot value for USD is
positive. -/
theorem snapshot_rates_mirror_response_witness :
    0 < (("USD", (2 : ℚ)) : String × ℚ).2 := by
  refine (snapshot_rates_mirror_response (fun c => if c = .USD then some 2 else none)
    Currency.EUR (some [Currency.USD])).2 ?_ ("USD", 2) ?_
  · intro c q hq
    cases c <;> simp at hq <;> rw [← hq] <;> norm_num
  · norm_num +decide [get_exchange_rates, responseRates, List.filterMap_cons]

/-- C9 counterexample: on `convert(amount = 100, USD → UZS)` with a cache
miss and the provider serving the EUR-based snapshot with USD at 1.0869
and UZS at 13870.5, the resolved rate is 13870.5 / 1.0869 =
138705000/10869 ≈ 12761.52 and the converted amount is 1276152.36 — both
more than a whole unit away from the claimed 12762.9 and 1276290.00. -/
theorem convert_usd_uzs_claim_values_false :
    (convert (fun f t => (client_get_rate
        (fun c => if c = .USD then some (10869/10000)
          else if c = .UZS then some (27741/2) else none) f t).1)
      1800 ⟨true, true, []⟩ ⟨100, .USD, .UZS⟩).1 =
      .ok ⟨100, .USD, .UZS, 127615236/100, 138705000/10869, true⟩ ∧
    1 < |(138705000/10869 : ℚ) - 127629/10| ∧
    1 < |(127615236/100 : ℚ) - 1276290| := by
  refine ⟨?_, ?_, ?_⟩
  · norm_num +decide [convert, getRate, cacheKey, Currency.code, RedisCache.get,
      RedisCache.set, clientGet, clientSetex, lookupKey, deserialize, wasCached, round2,
      client_get_rate, get_exchange_rates, responseRates, neededCurrencies,
      List.filterMap_cons, Int.floor_eq_iff]
  · have h : (138705000/10869 : ℚ) - 127629/10 < 0 := by norm_num
    rw [abs_of_neg h]
    norm_num
  · have h : (127615236/100 : ℚ) - 1276290 < 0 := by norm_num
    rw [abs_of_neg h]
    norm_num

/-- C9 amended: `convert(amount = 100, USD → UZS)` with a cache miss and
the provider serving the EUR-based snapshot with USD at 1.0869 and UZS at
13870.5 yields the rate 13870.5 / 1.0869 = 138705000/10869 ≈ 12761.52
(derived as rate(UZS)/rate(USD)) and the converted amount 1276152.36
(amount times rate, rounded to 2 decimal places). -/
theorem convert_usd_uzs_concrete :
    (convert (fun f t => (client_get_rate
        (fun c => if c = .USD then some (10869/10000)
          else if c = .UZS then some (27741/2) else none) f t).1)
      1800 ⟨true, true, []⟩ ⟨100, .USD, .UZS⟩).1 =
      .ok ⟨100, .USD, .UZS, 127615236/100, 138705000/10869, true⟩ := by
  norm_num +decide [convert, getRate, cacheKey, Currency.code, RedisCache.get,
    RedisCache.set, clientGet, clientSetex, lookupKey, deserialize, wasCached, round2,
    client_get_rate, get_exchange_rates, responseRates, neededCurrencies,
    List.filterMap_cons, Int.floor_eq_iff]

end CurrencyConv
